import Mathlib

/-!
Verification development for the kmz-flood-leveling scripts.

The repository contains an archive-geometry loader (extract a KML file from
a KMZ zip, parse it into polygon records, normalize the CRS, repair invalid
geometry) and a depth-extrusion renderer (turn each polygon ring into a top
face, a bottom face and side-wall quads, colored by normalized depth).

We embed the data model and the pure computational content of those scripts
over exact rationals and prove the documented properties about them.
-/

namespace KmzFlood

/-- Equality of `Except` results is decidable componentwise. -/
instance {ε α : Type} [DecidableEq ε] [DecidableEq α] :
    DecidableEq (Except ε α) := fun a b =>
  match a, b with
  | Except.ok x, Except.ok y =>
      if h : x = y then isTrue (by rw [h]) else isFalse (by simp [h])
  | Except.error e, Except.error f =>
      if h : e = f then isTrue (by rw [h]) else isFalse (by simp [h])
  | Except.ok _, Except.error _ => isFalse (by simp)
  | Except.error _, Except.ok _ => isFalse (by simp)

/-- A 3D point of the rendered mesh, coordinates as exact rationals. -/
structure Point3 where
  x : ℚ
  y : ℚ
  z : ℚ
deriving DecidableEq, Repr

/-- A polygon as shapely exposes it to the plotting code: an exterior ring
(the coordinate list `poly.exterior.coords`, closing vertex included when the
source data repeats it) and a list of interior rings (holes). -/
structure Polygon where
  exterior : List (ℚ × ℚ)
  holes : List (List (ℚ × ℚ))
deriving DecidableEq, Repr

/-- Geometry as seen through `geom.geom_type`: the types that occur in the
pipeline.  `read_polygons` / `read_kml_to_gdf` keep only `polygon` and
`multiPolygon`. -/
inductive Geometry where
  | point (c : ℚ × ℚ)
  | lineString (cs : List (ℚ × ℚ))
  | polygon (p : Polygon)
  | multiPolygon (ps : List Polygon)
deriving DecidableEq, Repr

/-- `geom.geom_type` of shapely. -/
def geomType : Geometry → String
  | .point _ => "Point"
  | .lineString _ => "LineString"
  | .polygon _ => "Polygon"
  | .multiPolygon _ => "MultiPolygon"

/-- `base_z = 0.0` in `plot_extruded_3d`: the base elevation of every
extrusion. -/
def base_z : ℚ := 0

/-- The fixed height scale: `actual_extrude_h = depth * 0.05`. -/
def depthScale : ℚ := 5 / 100

/-- The top face: `[(xi, yi, base_z + actual_extrude_h) for xi, yi in zip(x, y)]`. -/
def topFace (coords : List (ℚ × ℚ)) (h : ℚ) : List Point3 :=
  coords.map (fun c => ⟨c.1, c.2, base_z + h⟩)

/-- The bottom face: `[(xi, yi, base_z) for xi, yi in zip(x, y)]`. -/
def bottomFace (coords : List (ℚ × ℚ)) : List Point3 :=
  coords.map (fun c => ⟨c.1, c.2, base_z⟩)

/-- One side-wall quad between consecutive ring vertices, exactly the
four-tuple built in the `for i in range(n - 1)` loop. -/
def sideQuad (c0 c1 : ℚ × ℚ) (h : ℚ) : List Point3 :=
  [⟨c0.1, c0.2, base_z⟩, ⟨c1.1, c1.2, base_z⟩,
   ⟨c1.1, c1.2, base_z + h⟩, ⟨c0.1, c0.2, base_z + h⟩]

/-- The side walls: the loop `for i in range(n - 1)` pairs `coords[i]` with
`coords[i + 1]`, which is the zip of the coordinate list with its tail. -/
def sideQuads (coords : List (ℚ × ℚ)) (h : ℚ) : List (List Point3) :=
  (coords.zip coords.tail).map (fun cc => sideQuad cc.1 cc.2 h)

/-- All faces emitted for one ring: the top face, the bottom face, and the
side quads, in the order the script adds them to the axes. -/
def ringFaces (coords : List (ℚ × ℚ)) (h : ℚ) : List (List Point3) :=
  topFace coords h :: bottomFace coords :: sideQuads coords h

/-- `polys = [geom]` for a Polygon, `polys = list(geom.geoms)` for a
MultiPolygon; other types never reach the loop (they are filtered out by the
loader). -/
def geomPolys : Geometry → List Polygon
  | .polygon p => [p]
  | .multiPolygon ps => ps
  | _ => []

/-- The faces emitted for one feature: each of its polygons contributes the
faces of its exterior ring, extruded to `depth * 0.05`.  Interior rings are
never read (`poly.exterior` only). -/
def featureFaces (g : Geometry) (d : ℚ) : List (List Point3) :=
  (geomPolys g).flatMap (fun p => ringFaces p.exterior (d * depthScale))

/-- All faces of the run: feature `idx` is paired with `depths[idx]`. -/
def meshFaces (geoms : List Geometry) (depths : List ℚ) : List (List Point3) :=
  (geoms.zip depths).flatMap (fun gd => featureFaces gd.1 gd.2)

/-- The x coordinates a polygon contributes to the axis-limit tracking lists
(`xs.extend(x)`): exterior ring only. -/
def polyXs (p : Polygon) : List ℚ :=
  p.exterior.map Prod.fst

/-- The y coordinates a polygon contributes to the axis-limit tracking lists
(`ys.extend(y)`): exterior ring only. -/
def polyYs (p : Polygon) : List ℚ :=
  p.exterior.map Prod.snd

/-! ### Depth normalization (numpy fragment of `plot_extruded_3d`) -/

/-- Binary minimum by `≤`, as numpy's reduction uses it. -/
def qmin (a b : ℚ) : ℚ := if a ≤ b then a else b

/-- Binary maximum by `≤`. -/
def qmax (a b : ℚ) : ℚ := if a ≤ b then b else a

/-- `np.min`: the reduction has no identity, so it fails on an empty
array (`ValueError`), modelled by `none`. -/
def npMin : List ℚ → Option ℚ
  | [] => none
  | x :: xs => some (xs.foldl qmin x)

/-- `np.max`, failing on an empty array. -/
def npMax : List ℚ → Option ℚ
  | [] => none
  | x :: xs => some (xs.foldl qmax x)

/-- The depth normalization of `plot_extruded_3d`:
`(depths - min) / (max - min)` when `max > min`, otherwise
`np.ones_like(depths) * 0.5`; `np.min` / `np.max` raise on an empty array. -/
def normalizeDepths (depths : List ℚ) : Option (List ℚ) :=
  match npMin depths, npMax depths with
  | some mn, some mx =>
      some (if mn < mx then depths.map (fun d => (d - mn) / (mx - mn))
            else depths.map (fun _ => 1 / 2))
  | _, _ => none

/-- The linear normalization applied per record when `max > min`. -/
def normDepth (mn mx d : ℚ) : ℚ := (d - mn) / (mx - mn)

/-- The colormap position `0.4 + norm_depth * 0.6` fed to `plt.cm.Blues`
(position `0.4` = lightest used tone, `1.0` = darkest). -/
def cmapPos (nd : ℚ) : ℚ := 2 / 5 + nd * (3 / 5)

/-- One component of the edge color:
`c * 1.2 if c * 1.2 <= 1 else 1`. -/
def edgeComp (c : ℚ) : ℚ := if c * (6 / 5) ≤ 1 then c * (6 / 5) else 1

/-- The edge color derived from the three face-color components. -/
def edgeColor (r g b : ℚ) : ℚ × ℚ × ℚ := (edgeComp r, edgeComp g, edgeComp b)

/-! ### Geometry validity and the zero-buffer repair

The loader in `read_kmz_geopandas.py` runs `gdf.geometry.buffer(0)` and then
drops rows where `is_valid` is false.  The validity test and the repair are
performed by the GEOS library, whose code is not part of this repository. -/

/-- Modelled from the spec: a geometry together with its shapely validity
state.  `valid` is the `is_valid` flag (no self-intersections); `minor`
records whether an invalidity is one of the "minor self-intersections" that
the spec says the zero-distance buffer can fix. -/
structure VGeom where
  geom : Geometry
  valid : Bool
  minor : Bool
deriving DecidableEq, Repr

/-- Modelled from the spec: the zero-distance buffer repair (`buffer(0)`),
"a standard geometric repair idiom" that fixes minor self-intersections,
leaves already-valid geometry unchanged, and may leave a badly invalid
geometry invalid (such records are dropped afterwards). -/
def buffer0 (g : VGeom) : VGeom :=
  if g.valid then g
  else if g.minor then { g with valid := true }
  else g

/-- Whether a geometry row survives the
`geom_type.isin(["Polygon", "MultiPolygon"])` filter. -/
def isPolygonal (g : Geometry) : Bool :=
  geomType g == "Polygon" || geomType g == "MultiPolygon"

/-- The loader of `read_kmz_geopandas.read_kml_to_gdf`, on the parsed rows
(`none` = null geometry) and the parsed CRS (an EPSG code, `none` when the
file declares no CRS):
drop nulls, keep Polygon/MultiPolygon, set EPSG:4326 when the CRS is missing
and reproject to EPSG:4326 otherwise, buffer-repair every geometry, and keep
only the rows that are valid afterwards. -/
def read_kml_to_gdf (rows : List (Option VGeom)) (crs : Option Nat) :
    List VGeom × Option Nat :=
  let g1 := rows.filterMap id
  let g2 := g1.filter (fun r => isPolygonal r.geom)
  let newCrs : Option Nat := match crs with
    | none => some 4326
    | some _ => some 4326
  let g3 := g2.map buffer0
  let g4 := g3.filter (fun r => r.valid)
  (g4, newCrs)

/-- The loader of `plot_kmz_flood.read_polygons`: drop nulls, keep
Polygon/MultiPolygon, set EPSG:4326 only when the CRS is missing (a non-null
CRS is left as it is), and perform no repair at all. -/
def read_polygons (rows : List (Option VGeom)) (crs : Option Nat) :
    List VGeom × Option Nat :=
  let g1 := rows.filterMap id
  let g2 := g1.filter (fun r => isPolygonal r.geom)
  let newCrs : Option Nat := match crs with
    | none => some 4326
    | some c => some c
  (g2, newCrs)

/-! ### Locating the KML inside the extracted archive -/

/-- An entry of the decompressed workspace: a plain file or a directory with
its children, both in directory-listing order. -/
inductive FSEntry where
  | file (name : String)
  | dir (name : String) (children : List FSEntry)

/-- The file names among a directory's entries, in listing order. -/
def dirFiles : List FSEntry → List String
  | [] => []
  | FSEntry.file n :: rest => n :: dirFiles rest
  | FSEntry.dir _ _ :: rest => dirFiles rest

/-- The names of all entries (files and directories alike), in listing
order: what `os.listdir` yields. -/
def listdirNames : List FSEntry → List String
  | [] => []
  | FSEntry.file n :: rest => n :: listdirNames rest
  | FSEntry.dir n _ :: rest => n :: listdirNames rest

/-- The file names below a list of entries in `os.walk` top-down order,
after the current directory's own files: for each subdirectory in listing
order, its files and then its own subtree. -/
def walkSub : List FSEntry → List String
  | [] => []
  | FSEntry.file _ :: rest => walkSub rest
  | FSEntry.dir _ cs :: rest => (dirFiles cs ++ walkSub cs) ++ walkSub rest

/-- All file names of the workspace in `os.walk` top-down order: the root's
files first, then each subtree. -/
def walkNames (es : List FSEntry) : List String :=
  dirFiles es ++ walkSub es

/-- `f.lower().endswith(".kml")` for ASCII file names. -/
def endsWithKml (s : String) : Bool :=
  ".kml".data.isSuffixOf (s.data.map Char.toLower)

/-- `read_kmz_geopandas.extract_kml_from_kmz` (also
`read_kml_with_pyogrio.extract_kml`): walk the workspace recursively with
`os.walk` and return the first name ending in `.kml` case-insensitively;
raise `FileNotFoundError` when there is none. -/
def extract_kml_from_kmz (es : List FSEntry) : Except String String :=
  match (walkNames es).find? endsWithKml with
  | some n => Except.ok n
  | none => Except.error "No .kml inside KMZ"

/-- `plot_kmz_flood.extract_kml`: scan only `os.listdir` of the workspace
root (entries of the top level, no recursion) and return the first name
ending in `.kml` case-insensitively; raise `FileNotFoundError` otherwise. -/
def extract_kml (es : List FSEntry) : Except String String :=
  match (listdirNames es).find? endsWithKml with
  | some n => Except.ok n
  | none => Except.error "No .kml inside KMZ"

/-! ### The two-driver parse fallback -/

/-- The GDAL drivers tried by `read_polygons` / `read_kml_to_gdf` /
`read_kml_with_pyogrio.main`. -/
inductive Driver where
  | libkml
  | kml
deriving DecidableEq, Repr

/-- `try: read_file(driver="LIBKML") except Exception: read_file(...)`:
the result, together with the trace of drivers actually invoked. -/
def tryDrivers {α : Type} (primary secondary : Except String α) :
    Except String α × List Driver :=
  match primary with
  | Except.ok a => (Except.ok a, [Driver.libkml])
  | Except.error _ => (secondary, [Driver.libkml, Driver.kml])

/-! ### Depth resolution in `plot_extruded_3d` -/

/-- Which source the renderer took its depth values from. -/
inductive DepthSource where
  | caller (name : String)
  | fallback (name : String)
  | synthetic
deriving DecidableEq, Repr

/-- The fixed fallback list
`['depth', 'DEPTH', 'water_depth', 'Depth', 'flood_depth']`. -/
def fallbackCols : List String :=
  ["depth", "DEPTH", "water_depth", "Depth", "flood_depth"]

/-- The `for col in [...]: if col in gdf.columns ... else:` search. -/
def fallbackOrSynthetic (cols : List String) : DepthSource :=
  match fallbackCols.find? (fun c => cols.contains c) with
  | some c => DepthSource.fallback c
  | none => DepthSource.synthetic

/-- `if depth_column and depth_column in gdf.columns:` — the caller-supplied
name wins when it is a non-empty (truthy) string naming an existing column;
otherwise the fallback list is searched, and failing that depths are
synthesized. -/
def resolveDepthSource (depthColumn : Option String) (cols : List String) :
    DepthSource :=
  match depthColumn with
  | some c =>
      if c != "" && cols.contains c then DepthSource.caller c
      else fallbackOrSynthetic cols
  | none => fallbackOrSynthetic cols

/-- Whether the "No depth column found - using random depths" message is
printed: only on the synthetic path. -/
def syntheticFlag : DepthSource → Bool
  | DepthSource.synthetic => true
  | _ => false

/-- `np.random.uniform(lo, hi, n)` driven by a stream `us` of unit samples
(each in `[0, 1)`): sample `i` is `lo + us[i] * (hi - lo)`. -/
def npRandomUniform (lo hi : ℚ) (n : Nat) (us : List ℚ) : List ℚ :=
  (us.take n).map (fun u => lo + u * (hi - lo))

/-- The depth values produced for each source: a column's values for the
caller or fallback paths, `np.random.uniform(0.5, 3.0, n)` for the
synthetic path. -/
def depthsFor (src : DepthSource) (colVals : String → List ℚ) (n : Nat)
    (us : List ℚ) : List ℚ :=
  match src with
  | DepthSource.caller c => colVals c
  | DepthSource.fallback c => colVals c
  | DepthSource.synthetic => npRandomUniform (1 / 2) 3 n us

/-- Whether `plot_extruded_3d` prints the
"Warning: GeoDataFrame is empty" message. -/
def emptyWarning (geoms : List Geometry) : Bool :=
  geoms.isEmpty

/-- The renderer front end of `plot_extruded_3d`: resolve the depth values,
normalize them (`np.min` / `np.max` raise `ValueError` on a zero-size
array), and emit the mesh faces.  The empty-collection warning is printed
before any of this, so it does not prevent the error. -/
def plot_extruded_3d (geoms : List Geometry) (depthColumn : Option String)
    (cols : List String) (colVals : String → List ℚ) (us : List ℚ) :
    Except String (List (List Point3)) :=
  let depths := depthsFor (resolveDepthSource depthColumn cols) colVals
    geoms.length us
  match normalizeDepths depths with
  | none =>
      Except.error
        "zero-size array to reduction operation minimum which has no identity"
  | some _ => Except.ok (meshFaces geoms depths)

/-! ### Helper lemmas -/

theorem qmin_le_left (a b : ℚ) : qmin a b ≤ a := by
  unfold qmin; split
  · exact le_refl a
  · exact le_of_not_le (by assumption)

theorem qmin_le_right (a b : ℚ) : qmin a b ≤ b := by
  unfold qmin; split
  · assumption
  · exact le_refl b

theorem le_qmax_left (a b : ℚ) : a ≤ qmax a b := by
  unfold qmax; split
  · assumption
  · exact le_refl a

theorem le_qmax_right (a b : ℚ) : b ≤ qmax a b := by
  unfold qmax; split
  · exact le_refl b
  · exact le_of_not_le (by assumption)

theorem foldl_qmin_le_init (xs : List ℚ) (a : ℚ) : xs.foldl qmin a ≤ a := by
  induction xs generalizing a with
  | nil => exact le_refl a
  | cons x xs ih =>
      exact le_trans (ih (qmin a x)) (qmin_le_left a x)

theorem foldl_qmin_le_mem (xs : List ℚ) (a : ℚ) :
    ∀ y ∈ xs, xs.foldl qmin a ≤ y := by
  induction xs generalizing a with
  | nil => intro y hy; cases hy
  | cons x xs ih =>
      intro y hy
      rcases List.mem_cons.mp hy with h | h
      · subst h
        exact le_trans (foldl_qmin_le_init xs (qmin a y)) (qmin_le_right a y)
      · exact ih (qmin a x) y h

theorem foldl_le_qmax_init (xs : List ℚ) (a : ℚ) : a ≤ xs.foldl qmax a := by
  induction xs generalizing a with
  | nil => exact le_refl a
  | cons x xs ih =>
      exact le_trans (le_qmax_left a x) (ih (qmax a x))

theorem foldl_le_qmax_mem (xs : List ℚ) (a : ℚ) :
    ∀ y ∈ xs, y ≤ xs.foldl qmax a := by
  induction xs generalizing a with
  | nil => intro y hy; cases hy
  | cons x xs ih =>
      intro y hy
      rcases List.mem_cons.mp hy with h | h
      · subst h
        exact le_trans (le_qmax_right a y) (foldl_le_qmax_init xs (qmax a y))
      · exact ih (qmax a x) y h

theorem npMin_le_mem {depths : List ℚ} {mn : ℚ} (h : npMin depths = some mn) :
    ∀ d ∈ depths, mn ≤ d := by
  cases depths with
  | nil => cases h
  | cons x xs =>
      intro d hd
      have hmn : mn = xs.foldl qmin x := by
        simpa [npMin] using h.symm
      subst hmn
      rcases List.mem_cons.mp hd with h | h
      · subst h; exact foldl_qmin_le_init xs d
      · exact foldl_qmin_le_mem xs x d h

theorem npMax_mem_le {depths : List ℚ} {mx : ℚ} (h : npMax depths = some mx) :
    ∀ d ∈ depths, d ≤ mx := by
  cases depths with
  | nil => cases h
  | cons x xs =>
      intro d hd
      have hmx : mx = xs.foldl qmax x := by
        simpa [npMax] using h.symm
      subst hmx
      rcases List.mem_cons.mp hd with h | h
      · subst h; exact foldl_le_qmax_init xs d
      · exact foldl_le_qmax_mem xs x d h

theorem buffer0_geom (g : VGeom) : (buffer0 g).geom = g.geom := by
  by_cases hv : g.valid <;> by_cases hm : g.minor <;> simp [buffer0, hv, hm]

theorem ringFaces_length (coords : List (ℚ × ℚ)) (h : ℚ) :
    (ringFaces coords h).length = 2 + (coords.length - 1) := by
  simp [ringFaces, sideQuads, List.length_zip, List.length_tail]
  omega

theorem featureFaces_polygon (p : Polygon) (d : ℚ) :
    featureFaces (Geometry.polygon p) d = ringFaces p.exterior (d * depthScale) := by
  simp [featureFaces, geomPolys]

theorem meshFaces_length (ps : List Polygon) (depths : List ℚ) (n : Nat)
    (hd : depths.length = ps.length) (h1 : 1 ≤ n)
    (hn : ∀ p ∈ ps, p.exterior.length = n) :
    (meshFaces (ps.map Geometry.polygon) depths).length = ps.length * (n + 1) := by
  induction ps generalizing depths with
  | nil => cases depths with
    | nil => simp [meshFaces]
    | cons d ds => cases hd
  | cons p ps ih =>
      cases depths with
      | nil => cases hd
      | cons d ds =>
          have hstep :
              meshFaces ((p :: ps).map Geometry.polygon) (d :: ds)
                = featureFaces (Geometry.polygon p) d
                  ++ meshFaces (ps.map Geometry.polygon) ds := rfl
          have hlen : ds.length = ps.length := by
            simpa using hd
          have hp : p.exterior.length = n := hn p (List.mem_cons_self p ps)
          have hrest : ∀ q ∈ ps, q.exterior.length = n := by
            intro q hq; exact hn q (List.mem_cons_of_mem p hq)
          calc (meshFaces ((p :: ps).map Geometry.polygon) (d :: ds)).length
              = (featureFaces (Geometry.polygon p) d).length
                + (meshFaces (ps.map Geometry.polygon) ds).length := by
                rw [hstep, List.length_append]
            _ = (2 + (n - 1)) + ps.length * (n + 1) := by
                rw [featureFaces_polygon, ringFaces_length, hp, ih ds hlen hrest]
            _ = (p :: ps).length * (n + 1) := by
                simp only [List.length_cons, Nat.succ_mul]
                omega

/-! ### The claims -/

/-- C1: for every polygon ring with `n` vertices rendered by
`plot_extruded_3d`, the emitted mesh is one top face whose vertices are the
ring's vertices lifted to height `depth * 0.05`, one bottom face at the base
elevation `z = 0`, and exactly `n - 1` side-wall quads pairing consecutive
vertices (the closing edge between last and first vertex gets no wall), so
`k` single-ring polygons produce `k * (1 + 1 + (n - 1))` mesh faces. -/
theorem mesh_extrusion_structure :
    (∀ (ps : List Polygon) (depths : List ℚ) (n : Nat),
        depths.length = ps.length → 1 ≤ n →
        (∀ p ∈ ps, p.exterior.length = n) →
        (meshFaces (ps.map Geometry.polygon) depths).length
          = ps.length * (1 + 1 + (n - 1)))
    ∧ (∀ (coords : List (ℚ × ℚ)) (d : ℚ),
        ∀ pt ∈ topFace coords (d * depthScale), pt.z = d * depthScale)
    ∧ (∀ (coords : List (ℚ × ℚ)) (h : ℚ),
        (topFace coords h).map (fun pt => (pt.x, pt.y)) = coords)
    ∧ (∀ coords : List (ℚ × ℚ), ∀ pt ∈ bottomFace coords, pt.z = 0)
    ∧ (∀ (coords : List (ℚ × ℚ)) (h : ℚ),
        (sideQuads coords h).length = coords.length - 1)
    ∧ (∀ (c0 c1 : ℚ × ℚ) (rest : List (ℚ × ℚ)) (h : ℚ),
        sideQuads (c0 :: c1 :: rest) h
          = sideQuad c0 c1 h :: sideQuads (c1 :: rest) h)
    ∧ (∀ (c : ℚ × ℚ) (h : ℚ),
        sideQuads [c] h = [] ∧ sideQuads ([] : List (ℚ × ℚ)) h = []) := by
  refine ⟨?_, ?_, ?_, ?_, ?_, ?_, ?_⟩
  · intro ps depths n hd h1 hn
    have hcount : 1 + 1 + (n - 1) = n + 1 := by omega
    rw [hcount]
    exact meshFaces_length ps depths n hd h1 hn
  · intro coords d pt hpt
    rcases List.mem_map.mp hpt with ⟨c, _, rfl⟩
    simp [base_z]
  · intro coords h
    simp only [topFace, List.map_map]
    exact List.map_id coords
  · intro coords pt hpt
    rcases List.mem_map.mp hpt with ⟨c, _, rfl⟩
    simp [base_z]
  · intro coords h
    simp [sideQuads, List.length_zip, List.length_tail]
  · intro c0 c1 rest h
    rfl
  · intro c h
    exact ⟨rfl, rfl⟩

/-- Witness for C1: three triangles (rings of 4 coordinates, closing vertex
repeated) yield `3 * (1 + 1 + 3) = 15` mesh faces. -/
theorem mesh_extrusion_structure_witness :
    (meshFaces (([⟨[(0, 0), (1, 0), (0, 1), (0, 0)], []⟩,
                  ⟨[(0, 0), (2, 0), (0, 2), (0, 0)], []⟩,
                  ⟨[(1, 1), (3, 1), (1, 3), (1, 1)], []⟩] :
        List Polygon).map Geometry.polygon) [1, 2, 3]).length
      = 3 * (1 + 1 + (4 - 1)) :=
  mesh_extrusion_structure.1 _ [1, 2, 3] 4 (by decide) (by decide) (by decide)

/-- C2 (amended): in `read_kmz_geopandas.read_kml_to_gdf` every returned
record has Polygon or MultiPolygon geometry, every geometry goes through the
zero-buffer repair and records still invalid afterwards are dropped, so every
returned geometry is valid, and the repair is idempotent.  (The near-copy
`plot_kmz_flood.read_polygons` performs no repair; see the
counterexample.) -/
theorem loader_repair_validity :
    (∀ (rows : List (Option VGeom)) (crs : Option Nat),
        ∀ r ∈ (read_kml_to_gdf rows crs).1,
          r.valid = true
          ∧ (geomType r.geom = "Polygon" ∨ geomType r.geom = "MultiPolygon"))
    ∧ (∀ g : VGeom, buffer0 (buffer0 g) = buffer0 g) := by
  constructor
  · intro rows crs r hr
    simp only [read_kml_to_gdf] at hr
    rcases List.mem_filter.mp hr with ⟨hr3, hvalid⟩
    rcases List.mem_map.mp hr3 with ⟨s, hs2, rfl⟩
    rcases List.mem_filter.mp hs2 with ⟨_, hpoly⟩
    refine ⟨hvalid, ?_⟩
    rw [buffer0_geom]
    simpa [isPolygonal] using hpoly
  · intro g
    by_cases hv : g.valid <;> by_cases hm : g.minor <;> simp [buffer0, hv, hm]

/-- Witness for C2: a row with a minor-invalid polygon is repaired and the
record the loader returns is valid with Polygon geometry. -/
theorem loader_repair_validity_witness :
    (⟨Geometry.polygon ⟨[(0, 0), (1, 1), (1, 0), (0, 1), (0, 0)], []⟩,
        true, true⟩ : VGeom).valid = true
    ∧ (geomType (⟨Geometry.polygon
          ⟨[(0, 0), (1, 1), (1, 0), (0, 1), (0, 0)], []⟩,
          true, true⟩ : VGeom).geom = "Polygon"
       ∨ geomType (⟨Geometry.polygon
          ⟨[(0, 0), (1, 1), (1, 0), (0, 1), (0, 0)], []⟩,
          true, true⟩ : VGeom).geom = "MultiPolygon") :=
  loader_repair_validity.1
    [some ⟨Geometry.polygon ⟨[(0, 0), (1, 1), (1, 0), (0, 1), (0, 0)], []⟩,
        false, true⟩] none
    ⟨Geometry.polygon ⟨[(0, 0), (1, 1), (1, 0), (0, 1), (0, 0)], []⟩,
        true, true⟩
    (by decide)

/-- C2 counterexample: `plot_kmz_flood.read_polygons` (one of the claim's
cited loaders) applies no repair and no validity filter, so an invalid
self-intersecting polygon record survives loading unrepaired, while
`read_kml_to_gdf` drops it. -/
theorem read_polygons_keeps_invalid :
    (⟨Geometry.polygon ⟨[(0, 0), (1, 1), (1, 0), (0, 1), (0, 0)], []⟩,
        false, false⟩ : VGeom)
      ∈ (read_polygons
          [some ⟨Geometry.polygon
              ⟨[(0, 0), (1, 1), (1, 0), (0, 1), (0, 0)], []⟩,
              false, false⟩] none).1
    ∧ (⟨Geometry.polygon ⟨[(0, 0), (1, 1), (1, 0), (0, 1), (0, 0)], []⟩,
        false, false⟩ : VGeom).valid = false
    ∧ (read_kml_to_gdf
          [some ⟨Geometry.polygon
              ⟨[(0, 0), (1, 1), (1, 0), (0, 1), (0, 0)], []⟩,
              false, false⟩] none).1 = [] := by
  refine ⟨by decide, rfl, by decide⟩

/-- C3 (amended): `read_kml_to_gdf` always ends with CRS EPSG:4326 (default
assumed when missing, reprojection otherwise), while
`plot_kmz_flood.read_polygons` only fills in the default when the CRS is
missing and leaves any other CRS unchanged. -/
theorem crs_normalization :
    (∀ (rows : List (Option VGeom)) (crs : Option Nat),
        (read_kml_to_gdf rows crs).2 = some 4326)
    ∧ (∀ rows : List (Option VGeom), (read_polygons rows none).2 = some 4326)
    ∧ (∀ (rows : List (Option VGeom)) (c : Nat),
        (read_polygons rows (some c)).2 = some c) := by
  refine ⟨?_, ?_, ?_⟩
  · intro rows crs; cases crs <;> rfl
  · intro rows; rfl
  · intro rows c; rfl

/-- C3 counterexample: a dataset carrying EPSG:32647 keeps that CRS through
`read_polygons`; it is not reprojected to the default EPSG:4326 datum. -/
theorem read_polygons_crs_unchanged :
    (read_polygons [] (some 32647)).2 = some 32647
    ∧ (read_polygons [] (some 32647)).2 ≠ some 4326 :=
  ⟨rfl, by decide⟩

/-- C4: on an empty collection `plot_extruded_3d` does print the visible
warning, but it then calls `np.min` on the zero-size depth array, which
raises `ValueError` before any mesh is emitted — the function aborts instead
of producing an empty mesh set. -/
theorem empty_collection_render_raises :
    emptyWarning [] = true
    ∧ plot_extruded_3d [] none ["Name"] (fun _ => []) []
        = Except.error
            "zero-size array to reduction operation minimum which has no identity" :=
  ⟨rfl, rfl⟩

/-- C5: when the observed minimum depth equals the maximum, the normalization
takes the `np.ones_like(depths) * 0.5` branch, assigning the fixed midpoint
`0.5` to every record; the division by `max - min` is the other branch of the
conditional and is not executed. -/
theorem equal_depths_normalize_half (depths : List ℚ) (mn mx : ℚ)
    (hmn : npMin depths = some mn) (hmx : npMax depths = some mx)
    (heq : mn = mx) :
    normalizeDepths depths = some (depths.map (fun _ => 1 / 2)) := by
  subst heq
  simp [normalizeDepths, hmn, hmx]

/-- Witness for C5 on the constant collection `[2, 2]`. -/
theorem equal_depths_normalize_half_witness :
    normalizeDepths [2, 2] = some ([(2 : ℚ), 2].map (fun _ => 1 / 2)) :=
  equal_depths_normalize_half [2, 2] 2 2 (by decide) (by decide) rfl

/-- C6: with `min < max`, the colormap position `0.4 + norm * 0.6` is `0.4`
(lightest) at the minimum depth, `1.0` (darkest) at the maximum, strictly
increasing in depth, and confined to `[0.4, 1.0]` for every record; the edge
color brightens each face-color component by `1.2` clamped at `1`. -/
theorem depth_color_monotone (depths : List ℚ) (mn mx : ℚ)
    (hmn : npMin depths = some mn) (hmx : npMax depths = some mx)
    (hlt : mn < mx) :
    normalizeDepths depths = some (depths.map (fun d => normDepth mn mx d))
    ∧ cmapPos (normDepth mn mx mn) = 2 / 5
    ∧ cmapPos (normDepth mn mx mx) = 1
    ∧ (∀ d d' : ℚ, d < d' →
        cmapPos (normDepth mn mx d) < cmapPos (normDepth mn mx d'))
    ∧ (∀ d ∈ depths,
        2 / 5 ≤ cmapPos (normDepth mn mx d) ∧ cmapPos (normDepth mn mx d) ≤ 1)
    ∧ (∀ c : ℚ, edgeComp c = min (c * (6 / 5)) 1) := by
  have hpos : 0 < mx - mn := sub_pos.mpr hlt
  have hne : mx - mn ≠ 0 := ne_of_gt hpos
  refine ⟨?_, ?_, ?_, ?_, ?_, ?_⟩
  · simp [normalizeDepths, hmn, hmx, hlt, normDepth]
  · simp [normDepth, cmapPos]
  · have h1 : normDepth mn mx mx = 1 := by
      rw [normDepth]; exact div_self hne
    rw [h1]; norm_num [cmapPos]
  · intro d d' hdd
    have expand : normDepth mn mx d' - normDepth mn mx d
        = (d' - d) / (mx - mn) := by
      unfold normDepth; ring
    have hq0 : 0 < (d' - d) / (mx - mn) := div_pos (by linarith) hpos
    have hq : normDepth mn mx d < normDepth mn mx d' := by linarith
    unfold cmapPos
    linarith
  · intro d hd
    have h1 : mn ≤ d := npMin_le_mem hmn d hd
    have h2 : d ≤ mx := npMax_mem_le hmx d hd
    have hnd0 : 0 ≤ normDepth mn mx d :=
      div_nonneg (by linarith) (le_of_lt hpos)
    have hnd1 : normDepth mn mx d ≤ 1 := by
      rw [normDepth, div_le_one hpos]; linarith
    constructor
    · unfold cmapPos; linarith
    · unfold cmapPos; linarith
  · intro c
    simp [edgeComp, min_def]

/-- Witness for C6 on depths `[1, 3]`: the endpoints of the color ramp. -/
theorem depth_color_monotone_witness :
    normalizeDepths [1, 3] = some ([(1 : ℚ), 3].map (fun d => normDepth 1 3 d))
    ∧ cmapPos (normDepth 1 3 1) = 2 / 5
    ∧ cmapPos (normDepth 1 3 3) = 1 :=
  ⟨(depth_color_monotone [1, 3] 1 3 (by decide) (by decide) (by norm_num)).1,
   (depth_color_monotone [1, 3] 1 3 (by decide) (by decide) (by norm_num)).2.1,
   (depth_color_monotone [1, 3] 1 3 (by decide) (by decide) (by norm_num)).2.2.1⟩

/-- C7: depth values are resolved first-match: a truthy caller-supplied
column name that exists wins; otherwise the first present name of
`['depth', 'DEPTH', 'water_depth', 'Depth', 'flood_depth']`; otherwise one
uniform sample per record from `[0.5, 3.0]` is synthesized, and only that
synthetic path prints the distinguishing message. -/
theorem depth_resolution_policy :
    (∀ (c : String) (cols : List String),
        (c != "" && cols.contains c) = true →
        resolveDepthSource (some c) cols = DepthSource.caller c)
    ∧ (∀ (dc : Option String) (cols : List String) (f : String),
        (∀ c, dc = some c → (c != "" && cols.contains c) = false) →
        fallbackCols.find? (fun c => cols.contains c) = some f →
        resolveDepthSource dc cols = DepthSource.fallback f)
    ∧ (∀ (dc : Option String) (cols : List String),
        (∀ c, dc = some c → (c != "" && cols.contains c) = false) →
        fallbackCols.find? (fun c => cols.contains c) = none →
        resolveDepthSource dc cols = DepthSource.synthetic)
    ∧ (∀ (n : Nat) (us : List ℚ), (∀ u ∈ us, 0 ≤ u ∧ u < 1) →
        ∀ d ∈ npRandomUniform (1 / 2) 3 n us, 1 / 2 ≤ d ∧ d ≤ 3)
    ∧ (syntheticFlag DepthSource.synthetic = true
       ∧ ∀ nm : String, syntheticFlag (DepthSource.caller nm) = false
          ∧ syntheticFlag (DepthSource.fallback nm) = false) := by
  refine ⟨?_, ?_, ?_, ?_, rfl, fun nm => ⟨rfl, rfl⟩⟩
  · intro c cols h
    simp only [resolveDepthSource]
    rw [h]
    simp
  · intro dc cols f hmiss hfind
    cases dc with
    | none =>
        simp only [resolveDepthSource, fallbackOrSynthetic]
        rw [hfind]
    | some c =>
        have hc := hmiss c rfl
        simp only [resolveDepthSource, fallbackOrSynthetic]
        rw [hc, hfind]
        simp
  · intro dc cols hmiss hfind
    cases dc with
    | none =>
        simp only [resolveDepthSource, fallbackOrSynthetic]
        rw [hfind]
    | some c =>
        have hc := hmiss c rfl
        simp only [resolveDepthSource, fallbackOrSynthetic]
        rw [hc, hfind]
        simp
  · intro n us hu d hd
    simp only [npRandomUniform] at hd
    rcases List.mem_map.mp hd with ⟨u, hu', rfl⟩
    have hb := hu u (List.mem_of_mem_take hu')
    constructor <;> nlinarith [hb.1, hb.2]

/-- Witness for C7: a present caller column wins; a synthetic sample from the
unit draw `1/2` lands inside `[0.5, 3.0]`. -/
theorem depth_resolution_policy_witness :
    resolveDepthSource (some "my_depth") ["Name", "my_depth"]
      = DepthSource.caller "my_depth"
    ∧ ((1 : ℚ) / 2 ≤ 7 / 4 ∧ (7 : ℚ) / 4 ≤ 3) :=
  ⟨depth_resolution_policy.1 "my_depth" ["Name", "my_depth"] (by decide),
   depth_resolution_policy.2.2.2.1 1 [1 / 2] (by norm_num) (7 / 4)
     (by norm_num [npRandomUniform])⟩

/-- C8: the parser tries the LIBKML driver first; when and only when it
fails, the secondary driver is invoked exactly once, and a failure of the
secondary propagates to the caller. -/
theorem driver_fallback_policy :
    (∀ (α : Type) (a : α) (s : Except String α),
        tryDrivers (Except.ok a) s = (Except.ok a, [Driver.libkml]))
    ∧ (∀ (α : Type) (e : String) (s : Except String α),
        tryDrivers (Except.error e) s = (s, [Driver.libkml, Driver.kml]))
    ∧ (∀ (α : Type) (e e' : String),
        (tryDrivers (α := α) (Except.error e) (Except.error e')).1
          = Except.error e') :=
  ⟨fun _ _ _ => rfl, fun _ _ _ => rfl, fun _ _ _ => rfl⟩

/-- C9 (amended): `extract_kml_from_kmz` returns the first name ending in
`.kml` (case-insensitively) of the recursive `os.walk` order and raises
`FileNotFoundError` when none exists; the near-copy
`plot_kmz_flood.extract_kml` scans only the top-level `os.listdir` names the
same way. -/
theorem extract_kml_search :
    (∀ (es : List FSEntry) (nm : String),
        extract_kml_from_kmz es = Except.ok nm →
        nm ∈ walkNames es ∧ endsWithKml nm = true)
    ∧ (∀ es : List FSEntry,
        (∀ nm ∈ walkNames es, endsWithKml nm = false) →
        extract_kml_from_kmz es = Except.error "No .kml inside KMZ")
    ∧ (∀ (es : List FSEntry) (nm : String),
        extract_kml es = Except.ok nm →
        nm ∈ listdirNames es ∧ endsWithKml nm = true)
    ∧ (∀ es : List FSEntry,
        (∀ nm ∈ listdirNames es, endsWithKml nm = false) →
        extract_kml es = Except.error "No .kml inside KMZ") := by
  refine ⟨?_, ?_, ?_, ?_⟩
  · intro es nm h
    unfold extract_kml_from_kmz at h
    cases hf : (walkNames es).find? endsWithKml with
    | none => rw [hf] at h; cases h
    | some m =>
        rw [hf] at h
        simp only [Except.ok.injEq] at h
        subst h
        exact ⟨List.mem_of_find?_eq_some hf, List.find?_some hf⟩
  · intro es hall
    unfold extract_kml_from_kmz
    have hf : (walkNames es).find? endsWithKml = none :=
      List.find?_eq_none.mpr (fun x hx => by rw [hall x hx]; simp)
    rw [hf]
  · intro es nm h
    unfold extract_kml at h
    cases hf : (listdirNames es).find? endsWithKml with
    | none => rw [hf] at h; cases h
    | some m =>
        rw [hf] at h
        simp only [Except.ok.injEq] at h
        subst h
        exact ⟨List.mem_of_find?_eq_some hf, List.find?_some hf⟩
  · intro es hall
    unfold extract_kml
    have hf : (listdirNames es).find? endsWithKml = none :=
      List.find?_eq_none.mpr (fun x hx => by rw [hall x hx]; simp)
    rw [hf]

/-- Witness for C9: a top-level `a.KML` is found by the recursive search and
matches the case-insensitive suffix test. -/
theorem extract_kml_search_witness :
    "a.KML" ∈ walkNames [FSEntry.file "a.KML"] ∧ endsWithKml "a.KML" = true :=
  extract_kml_search.1 [FSEntry.file "a.KML"] "a.KML"
    (by simp [extract_kml_from_kmz, walkNames, walkSub, dirFiles, List.find?,
      show endsWithKml "a.KML" = true from by decide])

/-- C9 counterexample: with the only KML nested one directory down, the
recursive loader finds it but `plot_kmz_flood.extract_kml` — a cited source
of the claim — raises `FileNotFoundError`, so the claimed recursive search
does not hold for that extractor. -/
theorem extract_kml_top_level_only :
    extract_kml_from_kmz [FSEntry.dir "files" [FSEntry.file "doc.kml"]]
      = Except.ok "doc.kml"
    ∧ extract_kml [FSEntry.dir "files" [FSEntry.file "doc.kml"]]
      = Except.error "No .kml inside KMZ" := by
  constructor
  · simp [extract_kml_from_kmz, walkNames, walkSub, dirFiles, List.find?,
      show endsWithKml "doc.kml" = true from by decide]
  · simp [extract_kml, listdirNames, List.find?,
      show endsWithKml "files" = false from by decide]

/-- C10: interior rings never contribute: the faces a polygon emits and the
x/y coordinates it feeds into the axis-limit computation depend only on the
exterior ring, so any change of the holes leaves both unchanged. -/
theorem holes_ignored :
    ∀ (e : List (ℚ × ℚ)) (hs hs' : List (List (ℚ × ℚ))) (d : ℚ),
      featureFaces (Geometry.polygon ⟨e, hs⟩) d
        = featureFaces (Geometry.polygon ⟨e, hs'⟩) d
      ∧ polyXs ⟨e, hs⟩ = polyXs ⟨e, hs'⟩
      ∧ polyYs ⟨e, hs⟩ = polyYs ⟨e, hs'⟩ :=
  fun _ _ _ _ => ⟨rfl, rfl, rfl⟩

end KmzFlood
